import Mathlib

/-!
# Verification of the binance-trade-bot Execution & Risk Control Core

Shallow embedding of the trading bot's core modules (`bot/utils.py`,
`bot/risk.py`, `bot/state.py`, `bot/binance_client.py`, `bot/market_data.py`,
`bot/execution.py`, and the signal-handling portion of `bot/ws_manager.py`).

Python floats are modelled as exact rationals (`ℚ`), Python ints as `ℤ`,
Python dict entries keyed by symbol as per-symbol state records where a
missing key is the documented default (`Option`/`0`).  Exchange I/O is
modelled by passing the responses (filters, ticker price, wallet balance,
order fills, trade history) as explicit arguments; the sequence of client
calls issued by the buy path is recorded in an explicit trace list.
-/

namespace TradeBot

/-! ## utils.py -/

/-- Source `utils.normalize_symbol` (the later, authoritative definition in
`bot/utils.py`): strip `/` separators and upper-case. -/
def normalize_symbol (symbol : String) : String :=
  (symbol.replace "/" "").toUpper

/-- Source `utils.round_step`: floor `value` to a multiple of `step`; identity when
`step <= 0`. -/
def round_step (value step : ℚ) : ℚ :=
  if step ≤ 0 then value else (⌊value / step⌋ : ℤ) * step

/-- Source `utils.round_tick`: floor `price` to a multiple of `tick`; identity when
`tick <= 0`. -/
def round_tick (price tick : ℚ) : ℚ :=
  if tick ≤ 0 then price else (⌊price / tick⌋ : ℤ) * tick

/-! ## binance_client.py -/

/-- The per-symbol exchange filters cached by
`BinanceClient.get_symbol_filters`. -/
structure SymbolFilters where
  stepSize : ℚ
  minQty : ℚ
  tickSize : ℚ
  minNotional : ℚ
deriving DecidableEq

/-- Source `BinanceClient.conform_qty_price`: quantity floored to `stepSize` then
raised to at least `minQty`; price floored to `tickSize`. -/
def conform_qty_price (flt : SymbolFilters) (qty price : ℚ) : ℚ × ℚ :=
  (max (round_step qty flt.stepSize) flt.minQty, round_tick price flt.tickSize)

/-! ## risk.py -/

/-- Source `risk.RiskConfig`. -/
structure RiskConfig where
  capital_per_trade_pct : ℚ
  stop_loss_pct : ℚ
  take_profit_pct : ℚ
  max_daily_loss_pct : ℚ
  max_trades_per_day : ℤ
  capital_base_usdt : ℚ
  protective_orders_enabled : Bool
deriving DecidableEq

/-- Source `risk.RiskState`: in-memory per-process daily counters. -/
structure RiskState where
  trades_today : ℤ
  realized_pnl_usdt : ℚ
deriving DecidableEq

/-- Source `RiskManager.can_trade`.  The daily-loss cutoff reads `pnl_daily` from the
persisted state file (`state.get()`), passed here as the `pnl_daily`
argument; the in-memory `realized_pnl_usdt` counter is not consulted. -/
def can_trade (cfg : RiskConfig) (st : RiskState) (pnl_daily : ℚ) : Bool :=
  if cfg.max_trades_per_day ≤ st.trades_today then
    false
  else
    let cap := cfg.capital_base_usdt
    if 0 < cap ∧ 0 < cfg.max_daily_loss_pct then
      let loss_limit := -|cap| * (|cfg.max_daily_loss_pct| / 100)
      if pnl_daily ≤ loss_limit then false else true
    else
      true

/-- Source `RiskManager.register_trade`. -/
def register_trade (st : RiskState) (realized_pnl_usdt : ℚ) : RiskState :=
  { trades_today := st.trades_today + 1
    realized_pnl_usdt := st.realized_pnl_usdt + realized_pnl_usdt }

/-- Source `RiskManager.position_size_from_balance`. -/
def position_size_from_balance (cfg : RiskConfig) (usdt_balance : ℚ) : ℚ :=
  max 0 (usdt_balance * cfg.capital_per_trade_pct / 100)

/-- Source `RiskManager.sl_pct`. -/
def sl_pct (cfg : RiskConfig) : ℚ := max 0 cfg.stop_loss_pct

/-- Source `RiskManager.tp_pct`. -/
def tp_pct (cfg : RiskConfig) : ℚ := max 0 cfg.take_profit_pct

/-! ## state.py -/

/-- Python's `arr[-n:]`. -/
def takeLast {α : Type} (n : ℕ) (l : List α) : List α :=
  l.drop (l.length - n)

/-- A recent-signal record `{ts, symbol, side, candle_close}`. -/
structure SignalRec where
  ts : ℤ
  symbol : String
  side : String
  candle_close : ℤ
deriving DecidableEq

/-- The TTL filter applied on every read/write of `recent_signals`:
keep records with `now - ts <= ttl_sec`. -/
def pruneKeep (now ttl_sec : ℤ) (arr : List SignalRec) : List SignalRec :=
  arr.filter (fun x => decide (now - x.ts ≤ ttl_sec))

/-- Source `state.is_recent_signal`: returns the hit flag together with the pruned,
capped list written back to the state file. -/
def is_recent_signal (now : ℤ) (symbol side : String) (candle_close ttl_sec : ℤ)
    (arr : List SignalRec) : Bool × List SignalRec :=
  let kept := pruneKeep now ttl_sec arr
  (kept.any (fun x =>
      x.symbol == symbol && x.side == side && x.candle_close == candle_close),
   takeLast 500 kept)

/-- Source `state.add_recent_signal`: append the record, prune by TTL, cap at 500. -/
def add_recent_signal (now : ℤ) (symbol side : String) (candle_close ttl_sec : ℤ)
    (arr : List SignalRec) : List SignalRec :=
  takeLast 500 (pruneKeep now ttl_sec
    (arr ++ [{ ts := now, symbol := symbol, side := side,
               candle_close := candle_close }]))

/-- One entry of the persisted trade ledger. -/
structure TradeRec where
  ts : ℤ
  symbol : String
  side : String
  qty : ℚ
  price : ℚ
  pnl : ℚ
deriving DecidableEq

/-- The fields of the persisted state file touched by `append_trade`. -/
structure FileState where
  pnl_daily : ℚ
  trades : List TradeRec
deriving DecidableEq

/-- Source `state.append_trade`: append to the capped ledger and accumulate
`pnl_daily`. -/
def append_trade (fs : FileState) (ts : ℤ) (symbol side : String)
    (qty price pnl : ℚ) : FileState :=
  { trades := takeLast 200 (fs.trades ++
      [{ ts := ts, symbol := symbol, side := side, qty := qty, price := price,
         pnl := pnl }])
    pnl_daily := fs.pnl_daily + pnl }

/-! ## market_data.py -/

/-- A closed candle as stored by `MarketDataService` (`open` is a Lean
keyword, so the open price field is named `openP`). -/
structure Candle where
  open_time : ℤ
  openP : ℚ
  high : ℚ
  low : ℚ
  close : ℚ
  volume : ℚ
  close_time : ℤ
  closed : Bool
deriving DecidableEq

/-- Source `MarketDataService._key`. -/
def mdKey (symbol interval : String) : String :=
  normalize_symbol symbol ++ "|" ++ interval

/-- Assoc-list update standing in for `self.buffers[k] = buf`. -/
def setKey (l : List (String × List Candle)) (k : String) (v : List Candle) :
    List (String × List Candle) :=
  match l with
  | [] => [(k, v)]
  | (k', v') :: rest =>
      if k' = k then (k, v) :: rest else (k', v') :: setKey rest k v

/-- Source `MarketDataService` state: the capacity `maxlen` and the per-key candle
deques. -/
structure MDS where
  maxlen : ℕ
  buffers : List (String × List Candle)
deriving DecidableEq

/-- Source `MarketDataService.bootstrap_from_rest`: a no-op when a buffer for the
key already exists; otherwise seeds a fresh buffer from the REST klines
(bounded by `maxlen`, newest kept). -/
def bootstrap_from_rest (mds : MDS) (symbol interval : String)
    (klines : List Candle) : MDS :=
  let k := mdKey symbol interval
  match mds.buffers.lookup k with
  | some _ => mds
  | none => { mds with buffers := setKey mds.buffers k (takeLast mds.maxlen klines) }

/-- Source `MarketDataService.on_kline_closed`: append a closed candle, creating the
buffer lazily; the bounded deque evicts the oldest entries. -/
def on_kline_closed (mds : MDS) (symbol interval : String) (c : Candle) : MDS :=
  let k := mdKey symbol interval
  let buf := (mds.buffers.lookup k).getD []
  { mds with buffers := setKey mds.buffers k (takeLast mds.maxlen (buf ++ [c])) }

/-- Source `MarketDataService.get_df`: the snapshot handed to strategies — empty
when fewer than 2 candles are buffered. -/
def get_df (mds : MDS) (symbol interval : String) : List Candle :=
  let buf := (mds.buffers.lookup (mdKey symbol interval)).getD []
  if buf.length < 2 then [] else buf

/-- Returns `true` when no two consecutive candles are more than one timeframe
interval (`iv`, in the same time unit as `open_time`) apart. -/
def gapFreeB (iv : ℤ) : List Candle → Bool
  | [] => true
  | [_] => true
  | a :: b :: rest =>
      decide (b.open_time - a.open_time ≤ iv) && gapFreeB iv (b :: rest)

/-! ## execution.py -/

/-- Per-symbol state of `ExecutionService`: remembered position
(`last_buy_price`/`last_buy_qty`) and protective levels.  A dict entry that
is absent or set to Python `None` is `none`. -/
structure ExecState where
  last_buy_price : Option ℚ
  last_buy_qty : ℚ
  stop_price : Option ℚ
  take_price : Option ℚ
deriving DecidableEq

/-- Client calls issued by the execution paths (calls nested inside the
client helpers are not recorded separately). -/
inductive ExchangeCall where
  | getSymbolFilters
  | getTicker
  | getSymbolInfo
  | getBalance
  | createOrderQuote
  | createOrderQty
  | createOcoSell
  | getMyTrades
deriving DecidableEq

/-- Source `ExecutionService._apply_protective_levels`.  Mirrors Python truthiness:
a computed level equal to `0` is stored as `None`.  Returns the updated
state and the OCO attempt (an exchange call) when both levels are set and a
position is held. -/
def apply_protective_levels (cfg : RiskConfig) (avg_price : ℚ) (st : ExecState) :
    ExecState × List ExchangeCall :=
  if ¬ cfg.protective_orders_enabled then
    ({ st with stop_price := none, take_price := none }, [])
  else
    let slp := sl_pct cfg
    let tpp := tp_pct cfg
    let stop : Option ℚ :=
      if 0 < slp then
        (let v := avg_price * (1 - slp / 100); if v = 0 then none else some v)
      else none
    let take : Option ℚ :=
      if 0 < tpp then
        (let v := avg_price * (1 + tpp / 100); if v = 0 then none else some v)
      else none
    let oco :=
      if stop.isSome ∧ take.isSome ∧ 0 < st.last_buy_qty then
        [ExchangeCall.createOcoSell]
      else []
    ({ st with stop_price := stop, take_price := take }, oco)

/-- Result of `ExecutionService._execute_buy`. -/
inductive BuyOutcome where
  /-- Desired spend below `minNotional`: rejected before any order call. -/
  | rejectedMinNotional
  /-- quoteOrderQty failed and the conformed fallback is still below
  `minNotional`: buy aborted. -/
  | fallbackAborted
  | bought (qty avg_price : ℚ)
deriving DecidableEq

/-- Total base quantity of an order's fill records `(price, qty)`. -/
def totalQty (fills : List (ℚ × ℚ)) : ℚ :=
  (fills.map Prod.snd).sum

/-- Sum of `price * qty` over the fill records. -/
def fillCost (fills : List (ℚ × ℚ)) : ℚ :=
  (fills.map (fun f => f.1 * f.2)).sum

/-- Source `ExecutionService._execute_buy`.  Exchange responses are parameters:
`last_price` the ticker price, `quoteOk` whether the quote-denominated
market order succeeds, `fills` the fill records of whichever order went
through.  Returns the outcome, the updated per-symbol state, the list of
`register_trade` arguments, and the trace of client calls. -/
def execute_buy (cfg : RiskConfig) (flt : SymbolFilters) (last_price : ℚ)
    (quoteOk : Bool) (fills : List (ℚ × ℚ)) (desired_quote_usdt : ℚ)
    (st : ExecState) : BuyOutcome × ExecState × List ℚ × List ExchangeCall :=
  let tr0 := [ExchangeCall.getSymbolFilters, ExchangeCall.getTicker]
  if desired_quote_usdt < flt.minNotional then
    (.rejectedMinNotional, st, [], tr0)
  else
    let finish : List ExchangeCall → BuyOutcome × ExecState × List ℚ × List ExchangeCall :=
      fun tr =>
        let tq := totalQty fills
        let avg_price := if fills ≠ [] ∧ 0 < tq then fillCost fills / tq else last_price
        let st1 := { st with last_buy_price := some avg_price, last_buy_qty := tq }
        let r2 := apply_protective_levels cfg avg_price st1
        (.bought tq avg_price, r2.1, [0], tr ++ r2.2)
    if quoteOk then
      finish (tr0 ++ [ExchangeCall.createOrderQuote])
    else
      let qty_raw := desired_quote_usdt / last_price
      let qty_adj := (conform_qty_price flt qty_raw last_price).1
      if qty_adj * last_price < flt.minNotional then
        (.fallbackAborted, st, [], tr0 ++ [ExchangeCall.createOrderQuote])
      else
        finish (tr0 ++ [ExchangeCall.createOrderQuote, ExchangeCall.createOrderQty])

/-- Result of `ExecutionService._execute_sell`. -/
inductive SellOutcome where
  /-- Case `min(target, wallet) <= 0`: nothing to sell. -/
  | noPosition
  /-- Conformed quantity below `minQty`: sell aborted. -/
  | belowMinQty
  /-- Notional below `minNotional` even after the opportunistic raise. -/
  | belowNotional
  | sold (qty pnl : ℚ)
deriving DecidableEq

/-- The tail of `ExecutionService._execute_sell` once the order quantity `q`
is fixed and the market order is placed: compute realized PnL against the
remembered average price, register it, decrement the remembered quantity
(clamped at zero) and clear the protective levels once flat. -/
def sell_finalize (last_price q : ℚ) (st : ExecState) :
    SellOutcome × ExecState × List ℚ :=
  let avg_buy := st.last_buy_price.getD last_price
  let pnl := (last_price - avg_buy) * q
  let new_qty := max 0 (st.last_buy_qty - q)
  let st' :=
    if new_qty ≤ 0 then
      { st with last_buy_qty := new_qty, stop_price := none, take_price := none }
    else
      { st with last_buy_qty := new_qty }
  (.sold q pnl, st', [pnl])

/-- Source `ExecutionService._execute_sell`.  `last_price` is the ticker price and
`wallet_qty` the exchange balance of the base asset.  Returns the outcome,
the updated per-symbol state and the list of `register_trade` arguments. -/
def execute_sell (flt : SymbolFilters) (last_price wallet_qty : ℚ)
    (st : ExecState) : SellOutcome × ExecState × List ℚ :=
  let target_qty := st.last_buy_qty
  let qty_raw := min target_qty wallet_qty
  if qty_raw ≤ 0 then
    (.noPosition, st, [])
  else
    let qty_adj := (conform_qty_price flt qty_raw last_price).1
    if qty_adj < flt.minQty then
      (.belowMinQty, st, [])
    else
      if qty_adj * last_price < flt.minNotional then
        let needed_qty := flt.minNotional / last_price
        let qty_try :=
          (conform_qty_price flt (min wallet_qty needed_qty) last_price).1
        if qty_try * last_price < flt.minNotional then
          (.belowNotional, st, [])
        else
          sell_finalize last_price qty_try st
      else
        sell_finalize last_price qty_adj st

/-- Which protective branch fires in `check_protective_exit`. -/
inductive TriggerReason where
  | stopHit
  | takeHit
deriving DecidableEq

/-- The trigger decision of `ExecutionService.check_protective_exit`:
`if sl and last_price <= sl: … elif tp and last_price >= tp: …`, guarded by
an open position.  Python truthiness of the stored level means a level equal
to `0` never fires. -/
def protectiveTrigger (st : ExecState) (last_price : ℚ) : Option TriggerReason :=
  if st.last_buy_qty ≤ 0 then none
  else
    let slHit :=
      match st.stop_price with
      | some s => decide (s ≠ 0) && decide (last_price ≤ s)
      | none => false
    let tpHit :=
      match st.take_price with
      | some t => decide (t ≠ 0) && decide (t ≤ last_price)
      | none => false
    if slHit then some .stopHit
    else if tpHit then some .takeHit
    else none

/-- Source `ExecutionService.check_protective_exit`: run the full-position sell when
a protective level is crossed; otherwise leave the state untouched. -/
def check_protective_exit (flt : SymbolFilters) (last_price wallet_qty : ℚ)
    (st : ExecState) : Option SellOutcome × ExecState × List ℚ :=
  match protectiveTrigger st last_price with
  | none => (none, st, [])
  | some _ =>
      let r := execute_sell flt last_price wallet_qty st
      (some r.1, r.2.1, r.2.2)

/-- One entry of the account trade history consumed by reconciliation. -/
structure MyTrade where
  qty : ℚ
  price : ℚ
  isBuyer : Bool
deriving DecidableEq

/-- The backward walk of `reconcile_for_symbol`: accumulate buy-side cost
until the remaining wallet quantity is covered; sells are skipped. -/
def reconCost : List MyTrade → ℚ → ℚ → ℚ
  | [], _, cost => cost
  | tr :: rest, rem, cost =>
      if tr.isBuyer = false then reconCost rest rem cost
      else
        let take := min rem tr.qty
        let cost' := cost + take * tr.price
        let rem' := rem - take
        if rem' ≤ 0 then cost' else reconCost rest rem' cost'

/-- Source `ExecutionService.reconcile_for_symbol`.  `wallet_qty` is the exchange
balance of the base asset and `trades` the recent trade history (oldest
first, walked in reverse).  Note: on a zero balance the position is zeroed
but the protective-level entries are not touched. -/
def reconcile_for_symbol (wallet_qty : ℚ) (trades : List MyTrade)
    (st : ExecState) : ExecState :=
  if wallet_qty ≤ 0 then
    { st with last_buy_qty := 0, last_buy_price := some 0 }
  else
    let cost := reconCost trades.reverse wallet_qty 0
    let pm := cost / wallet_qty
    { st with last_buy_qty := wallet_qty, last_buy_price := some pm }

/-! ## ws_manager.py — signal handling -/

/-- Outcome of submitting one `(symbol, side, candle_close)` signal through
the dedup/pause gate of `WebSocketBot.handle_candles`. -/
inductive SubmitResult where
  /-- Means `place_signal` was invoked (one execution attempt). -/
  | executed
  /-- Skipped by `is_recent_signal` (dedup window hit). -/
  | dedupSkipped
  /-- Recorded in the dedup window but skipped by the pause flag. -/
  | pausedSkipped
  /-- Mode is not `trade` or the signal is not buy/sell: gate not entered. -/
  | notTradable
deriving DecidableEq

/-- Number of `ExecutionService.place_signal` calls a submission causes. -/
def execCount : SubmitResult → ℕ
  | .executed => 1
  | _ => 0

/-- The per-signal gating sequence of `WebSocketBot.handle_candles`: mode and
signal check, `is_recent_signal` (which also rewrites the pruned window),
`add_recent_signal`, pause check, then the `place_signal` call.  Returns the
outcome and the resulting persisted dedup window. -/
def submitSignal (mode : String) (paused : Bool) (now : ℤ)
    (symbol side : String) (candle_close ttl_sec : ℤ)
    (arr : List SignalRec) : SubmitResult × List SignalRec :=
  if mode = "trade" ∧ (side = "buy" ∨ side = "sell") then
    let pr := is_recent_signal now symbol side candle_close ttl_sec arr
    if pr.1 then
      (.dedupSkipped, pr.2)
    else
      let arr2 := add_recent_signal now symbol side candle_close ttl_sec pr.2
      if paused then (.pausedSkipped, arr2) else (.executed, arr2)
  else
    (.notTradable, arr)

/-! ## Derived predicates and concrete fixtures -/

/-- The protective-levels invariant of the specification: stop or take
levels exist for a symbol only while the position quantity is strictly
positive. -/
def levelsInv (st : ExecState) : Prop :=
  (st.stop_price ≠ none ∨ st.take_price ≠ none) → 0 < st.last_buy_qty

/-- Startup seed: two contiguous one-minute candles (open times `0` and
`60000` ms). -/
def c3SeedKlines : List Candle :=
  [⟨0, 1, 1, 1, 1, 0, 59999, true⟩, ⟨60000, 1, 1, 1, 1, 0, 119999, true⟩]

/-- Fresh, gap-free historical snapshot available at reconnect time (open
times `120000` and `180000` ms — the candles missed while disconnected). -/
def c3FreshKlines : List Candle :=
  [⟨120000, 1, 1, 1, 1, 0, 179999, true⟩, ⟨180000, 1, 1, 1, 1, 0, 239999, true⟩]

/-- First live candle received after the reconnect (open time `240000`). -/
def c3LiveCandle : Candle := ⟨240000, 1, 1, 1, 1, 0, 299999, true⟩

/-! ## Helper lemmas -/

/-- Flooring to a step never increases the value. -/
theorem round_step_le (value step : ℚ) : round_step value step ≤ value := by
  unfold round_step
  split_ifs with h
  · exact le_refl _
  · have hs : 0 < step := lt_of_not_le h
    calc ((⌊value / step⌋ : ℤ) : ℚ) * step
        ≤ (value / step) * step :=
          mul_le_mul_of_nonneg_right (Int.floor_le _) hs.le
      _ = value := div_mul_cancel₀ value hs.ne'

/-- A multiple of a positive step is a fixed point of `round_step`. -/
theorem round_step_multiple (n : ℤ) (step : ℚ) (hs : 0 < step) :
    round_step ((n : ℚ) * step) step = (n : ℚ) * step := by
  unfold round_step
  rw [if_neg (not_le.2 hs), mul_div_cancel_right₀ _ hs.ne', Int.floor_intCast]

/-- The function `round_tick` is idempotent. -/
theorem round_tick_idem (price tick : ℚ) :
    round_tick (round_tick price tick) tick = round_tick price tick := by
  unfold round_tick
  split_ifs with h
  · rfl
  · have ht : tick ≠ 0 := (lt_of_not_le h).ne'
    rw [mul_div_cancel_right₀ _ ht, Int.floor_intCast]

/-- The quantity leg of the conformance transform is idempotent. -/
theorem conform_qty_idem (flt : SymbolFilters) (q : ℚ) :
    max (round_step (max (round_step q flt.stepSize) flt.minQty) flt.stepSize)
        flt.minQty
      = max (round_step q flt.stepSize) flt.minQty := by
  by_cases hs : flt.stepSize ≤ 0
  · unfold round_step
    rw [if_pos hs, if_pos hs, max_assoc, max_self]
  · have hs' : 0 < flt.stepSize := lt_of_not_le hs
    rcases le_total flt.minQty (round_step q flt.stepSize) with h | h
    · rw [max_eq_left h]
      have hm : round_step q flt.stepSize
          = ((⌊q / flt.stepSize⌋ : ℤ) : ℚ) * flt.stepSize := by
        unfold round_step; rw [if_neg hs]
      rw [hm, round_step_multiple _ _ hs', ← hm, max_eq_left h]
    · rw [max_eq_right h, max_eq_right (round_step_le flt.minQty flt.stepSize)]

/-- First component of the sell tail. -/
theorem sell_finalize_fst (last_price q : ℚ) (st : ExecState) :
    (sell_finalize last_price q st).1
        = SellOutcome.sold q
            ((last_price - st.last_buy_price.getD last_price) * q) := rfl

/-- Accounting facts of the sell tail: outcome and `register_trade` argument
carry `(exit - avg) * q`, the remembered quantity is decremented clamped at
zero, and the levels clear when the position reaches zero. -/
theorem sell_finalize_spec (last_price q : ℚ) (st : ExecState) :
    (sell_finalize last_price q st).1
        = SellOutcome.sold q
            ((last_price - st.last_buy_price.getD last_price) * q) ∧
    (sell_finalize last_price q st).2.2
        = [(last_price - st.last_buy_price.getD last_price) * q] ∧
    (sell_finalize last_price q st).2.1.last_buy_qty
        = max 0 (st.last_buy_qty - q) ∧
    ((sell_finalize last_price q st).2.1.last_buy_qty = 0 →
      (sell_finalize last_price q st).2.1.stop_price = none ∧
      (sell_finalize last_price q st).2.1.take_price = none) := by
  unfold sell_finalize
  dsimp only
  refine ⟨rfl, rfl, ?_, ?_⟩
  · split <;> rfl
  · split_ifs with hle
    · exact fun _ => ⟨rfl, rfl⟩
    · intro h0
      exact absurd (le_of_eq h0) hle

/-! ## Claim C1 — daily risk governor cutoff -/

/-- C1 counterexample: With a positive capital base of `1000` but
`maxDailyLossPct = 0`, the trade counter below its cap, and `pnl_daily = -10`
(which satisfies the claim's breach condition
`pnl <= -|capitalBase| * maxDailyLossPct/100 = 0`), the claim demands
`can_trade = false`, yet the code skips the loss check whenever
`max_daily_loss_pct <= 0` and returns `true`. -/
theorem c1_counterexample :
    can_trade ⟨10, 5, 5, 0, 5, 1000, true⟩ ⟨0, 0⟩ (-10) = true ∧
      (0 : ℚ) < (1000 : ℚ) ∧
      (-10 : ℚ) ≤ -|(1000 : ℚ)| * ((0 : ℚ) / 100) ∧
      (0 : ℤ) < (5 : ℤ) := by
  refine ⟨?_, by norm_num, by rw [abs_of_pos (by norm_num)]; norm_num, by norm_num⟩
  unfold can_trade
  norm_num

/-- C1 (amended): `can_trade` returns `false` iff the day's trade counter
reached the cap, or a positive capital base *and a positive daily-loss
percentage* are configured and `pnl_daily` (read from the persisted state
file) has breached `-|capitalBase| * maxDailyLossPct/100`; when either the
capital base or the percentage is not positive the loss check is skipped.
In particular, with `capitalBase = 1000` and `maxDailyLossPct = 5`, once the
file's daily PnL reaches `-50`, `can_trade` returns `false`. -/
theorem c1_can_trade_characterization :
    (∀ (cfg : RiskConfig) (st : RiskState) (pnl_daily : ℚ),
      can_trade cfg st pnl_daily = false ↔
        (cfg.max_trades_per_day ≤ st.trades_today ∨
          (0 < cfg.capital_base_usdt ∧ 0 < cfg.max_daily_loss_pct ∧
            pnl_daily ≤ -|cfg.capital_base_usdt| * (cfg.max_daily_loss_pct / 100)))) ∧
      can_trade ⟨10, 5, 5, 5, 10, 1000, true⟩ ⟨0, 0⟩ (-50) = false := by
  constructor
  · intro cfg st pnl_daily
    unfold can_trade
    dsimp only
    split_ifs with h1 h2 h3
    · exact iff_of_true rfl (Or.inl h1)
    · refine iff_of_true rfl (Or.inr ⟨h2.1, h2.2, ?_⟩)
      rwa [abs_of_pos h2.2] at h3
    · refine iff_of_false (by simp) ?_
      rintro (h | ⟨_, hp, hl⟩)
      · exact h1 h
      · exact h3 (by rw [abs_of_pos hp]; exact hl)
    · refine iff_of_false (by simp) ?_
      rintro (h | ⟨hc, hp, _⟩)
      · exact h1 h
      · exact h2 ⟨hc, hp⟩
  · unfold can_trade
    dsimp only
    rw [if_neg (by norm_num), if_pos (by constructor <;> norm_num),
      if_pos (by rw [abs_of_pos (by norm_num : (0:ℚ) < 1000),
        abs_of_pos (by norm_num : (0:ℚ) < 5)]; norm_num)]

/-! ## Claim C10 — `can_trade` ignores the in-memory PnL counter -/

/-- C10: `can_trade` is invariant under changes to the in-memory
`RiskState.realized_pnl_usdt` counter alone (same trade count, same persisted
`pnl_daily`), because the daily-loss cutoff reads the `pnl_daily` field of
the persisted state file — the field `append_trade` accumulates — and not
the in-memory counter that `register_trade` accumulates. -/
theorem c10_can_trade_ignores_memory_pnl :
    (∀ (cfg : RiskConfig) (trades : ℤ) (pnlA pnlB pnl_daily : ℚ),
      can_trade cfg ⟨trades, pnlA⟩ pnl_daily
        = can_trade cfg ⟨trades, pnlB⟩ pnl_daily) ∧
    (∀ (fs : FileState) (ts : ℤ) (symbol side : String) (qty price pnl : ℚ),
      (append_trade fs ts symbol side qty price pnl).pnl_daily
        = fs.pnl_daily + pnl) ∧
    (∀ (st : RiskState) (pnl : ℚ),
      (register_trade st pnl).realized_pnl_usdt = st.realized_pnl_usdt + pnl ∧
      (register_trade st pnl).trades_today = st.trades_today + 1) :=
  ⟨fun _ _ _ _ _ => rfl, fun _ _ _ _ _ _ _ => rfl, fun _ _ => ⟨rfl, rfl⟩⟩

/-! ## Claim C8 — conformance transform is idempotent -/

/-- C8: For every symbol's filters and every `(quantity, price)`,
`conform_qty_price` is idempotent: conforming an already conformed pair
changes nothing. -/
theorem c8_conform_qty_price_idempotent (flt : SymbolFilters) (qty price : ℚ) :
    conform_qty_price flt (conform_qty_price flt qty price).1
        (conform_qty_price flt qty price).2
      = conform_qty_price flt qty price := by
  unfold conform_qty_price
  exact Prod.ext (conform_qty_idem flt qty) (round_tick_idem price flt.tickSize)

/-! ## Claim C9 — conformance floor at `minQty` and its consequences -/

/-- C9: `conform_qty_price` always returns a quantity at least `minQty`
(for any input quantity, including zero or below-minimum); consequently the
sell path's post-conformance `adjustedQuantity < minQty` rejection branch is
unreachable (same cached filters record on both sides), and a sell sized by
the wallet balance can be silently raised above the quantity actually held:
with `stepSize = 1`, `minQty = 2`, wallet balance `1` and remembered
position `3`, the sell executes with quantity `2 > 1`. -/
theorem c9_conform_floor_minqty_unreachable :
    (∀ (flt : SymbolFilters) (qty price : ℚ),
      flt.minQty ≤ (conform_qty_price flt qty price).1) ∧
    (∀ (flt : SymbolFilters) (last_price wallet_qty : ℚ) (st : ExecState),
      (execute_sell flt last_price wallet_qty st).1 ≠ SellOutcome.belowMinQty) ∧
    ((execute_sell ⟨1, 2, 1, 1⟩ 10 1 ⟨some 8, 3, none, none⟩).1
        = SellOutcome.sold 2 4 ∧ (1 : ℚ) < 2) := by
  refine ⟨fun flt qty price => le_max_right _ _, ?_, ?_, by norm_num⟩
  · intro flt last_price wallet_qty st
    unfold execute_sell
    dsimp only
    split_ifs with h1 h2 h3 h4
    · simp
    · simp only [conform_qty_price] at h2
      exact absurd h2 (not_lt.2 (le_max_right _ _))
    all_goals simp [sell_finalize_fst]
  · unfold execute_sell sell_finalize conform_qty_price round_step round_tick
    norm_num [min_def, max_def]

/-! ## Claim C7 — buy below `minNotional` -/

/-- C7 counterexample: A buy of desired spend `40` against
`minNotional = 50` is rejected, but not before the ticker lookup
(`get_ticker`, a live exchange call) has been issued — so the claim's "no
exchange call of any kind is attempted" is false. -/
theorem c7_counterexample :
    (execute_buy ⟨10, 5, 5, 5, 10, 1000, true⟩ ⟨1, 1, 1, 50⟩ 100 true [] 40
        ⟨none, 0, none, none⟩).1 = BuyOutcome.rejectedMinNotional ∧
    ExchangeCall.getTicker ∈ (execute_buy ⟨10, 5, 5, 5, 10, 1000, true⟩
        ⟨1, 1, 1, 50⟩ 100 true [] 40 ⟨none, 0, none, none⟩).2.2.2 := by
  have h : (40 : ℚ) < (50 : ℚ) := by norm_num
  constructor
  · unfold execute_buy
    dsimp only
    rw [if_pos h]
  · unfold execute_buy
    dsimp only
    rw [if_pos h]
    decide

/-- C7 (amended): For every buy request whose desired quote-currency
spend is strictly below `minNotional`, the buy is rejected with no
order-placement call of any kind attempted (neither quote- nor
quantity-denominated, nor an OCO), the per-symbol state is unchanged and
`register_trade` is not called; the only exchange interactions preceding the
rejection are the read-only symbol-filters and ticker lookups. -/
theorem c7_buy_below_min_notional (cfg : RiskConfig) (flt : SymbolFilters)
    (last_price : ℚ) (quoteOk : Bool) (fills : List (ℚ × ℚ))
    (desired_quote_usdt : ℚ) (st : ExecState)
    (h : desired_quote_usdt < flt.minNotional) :
    (execute_buy cfg flt last_price quoteOk fills desired_quote_usdt st).1
        = BuyOutcome.rejectedMinNotional ∧
    (execute_buy cfg flt last_price quoteOk fills desired_quote_usdt st).2.1 = st ∧
    (execute_buy cfg flt last_price quoteOk fills desired_quote_usdt st).2.2.1 = [] ∧
    (execute_buy cfg flt last_price quoteOk fills desired_quote_usdt st).2.2.2
        = [ExchangeCall.getSymbolFilters, ExchangeCall.getTicker] := by
  unfold execute_buy
  dsimp only
  rw [if_pos h]
  exact ⟨rfl, rfl, rfl, rfl⟩

/-- C7 witness: Concrete instance: spend `40`, `minNotional = 50`. -/
theorem c7_witness :
    (execute_buy ⟨10, 5, 5, 5, 10, 1000, true⟩ ⟨1, 1, 1, 50⟩ 100 false
          [(100, 1)] 40 ⟨none, 0, none, none⟩).1
        = BuyOutcome.rejectedMinNotional ∧
    (execute_buy ⟨10, 5, 5, 5, 10, 1000, true⟩ ⟨1, 1, 1, 50⟩ 100 false
          [(100, 1)] 40 ⟨none, 0, none, none⟩).2.2.2
        = [ExchangeCall.getSymbolFilters, ExchangeCall.getTicker] :=
  ⟨(c7_buy_below_min_notional ⟨10, 5, 5, 5, 10, 1000, true⟩ ⟨1, 1, 1, 50⟩ 100
      false [(100, 1)] 40 ⟨none, 0, none, none⟩ (by norm_num)).1,
   (c7_buy_below_min_notional ⟨10, 5, 5, 5, 10, 1000, true⟩ ⟨1, 1, 1, 50⟩ 100
      false [(100, 1)] 40 ⟨none, 0, none, none⟩ (by norm_num)).2.2.2⟩

/-! ## Claim C4 — full-position sell accounting -/

/-- C4 counterexample: The sold quantity is *not* always bounded by the
wallet balance: with `stepSize = 1`, `minQty = 2`, wallet balance `1/2` and
remembered position `3`, `min(target, wallet) = 1/2` floors to `0` and is
then raised to `minQty = 2`, and the sell executes with quantity
`2 > 1/2`. -/
theorem c4_counterexample :
    (execute_sell ⟨1, 2, 1, 1⟩ 10 (1/2) ⟨some 8, 3, none, none⟩).1
        = SellOutcome.sold 2 4 ∧ ((1 : ℚ)/2) < 2 := by
  constructor
  · unfold execute_sell sell_finalize conform_qty_price round_step round_tick
    norm_num [min_def, max_def]
  · norm_num

/-- C4 (amended): On every filled full-position sell: the target
quantity is derived from `min(rememberedPosition.quantity, walletBalance)`,
but conformance may raise it to `minQty` (and the `minNotional` recovery may
raise it further), so the sold quantity can exceed the wallet's holding;
whenever no raise occurs (the floored target already meets `minQty` and its
notional meets `minNotional`) the sold quantity never exceeds the wallet
balance.  Realized PnL equals `(exitPrice - averagePrice) * soldQty` and is
passed to `register_trade` exactly once; the remembered quantity is
decremented by the sold amount clamped at zero; and the protective levels
are cleared once the quantity reaches zero. -/
theorem c4_sell_accounting (flt : SymbolFilters) (last_price wallet_qty q p : ℚ)
    (st : ExecState)
    (h : (execute_sell flt last_price wallet_qty st).1 = SellOutcome.sold q p) :
    p = (last_price - st.last_buy_price.getD last_price) * q ∧
    (execute_sell flt last_price wallet_qty st).2.2 = [p] ∧
    (execute_sell flt last_price wallet_qty st).2.1.last_buy_qty
        = max 0 (st.last_buy_qty - q) ∧
    ((execute_sell flt last_price wallet_qty st).2.1.last_buy_qty = 0 →
      (execute_sell flt last_price wallet_qty st).2.1.stop_price = none ∧
      (execute_sell flt last_price wallet_qty st).2.1.take_price = none) ∧
    (flt.minQty ≤ round_step (min st.last_buy_qty wallet_qty) flt.stepSize →
      flt.minNotional ≤
        (conform_qty_price flt (min st.last_buy_qty wallet_qty) last_price).1
          * last_price →
      q ≤ wallet_qty) := by
  unfold execute_sell at h ⊢
  dsimp only at h ⊢
  split_ifs at h ⊢ with h1 h2 h3 h4
  · rw [sell_finalize_fst] at h
    injection h with hq hp
    subst hq hp
    refine ⟨rfl, (sell_finalize_spec last_price _ st).2.1,
      (sell_finalize_spec last_price _ st).2.2.1,
      (sell_finalize_spec last_price _ st).2.2.2, ?_⟩
    intro _ hnot
    exact absurd h3 (not_lt.2 hnot)
  · rw [sell_finalize_fst] at h
    injection h with hq hp
    subst hq hp
    refine ⟨rfl, (sell_finalize_spec last_price _ st).2.1,
      (sell_finalize_spec last_price _ st).2.2.1,
      (sell_finalize_spec last_price _ st).2.2.2, ?_⟩
    intro hmin _
    have hq : (conform_qty_price flt (min st.last_buy_qty wallet_qty) last_price).1
        = round_step (min st.last_buy_qty wallet_qty) flt.stepSize := by
      simp only [conform_qty_price]
      exact max_eq_left hmin
    rw [hq]
    exact le_trans (round_step_le _ _) (min_le_right _ _)

/-- C4 witness: Full exit with no conformance raise: wallet `2`,
remembered position `2`, average price `7`, exit at `10`: PnL `6` is
registered exactly once, the position goes to `0` and the levels clear. -/
theorem c4_witness :
    (execute_sell ⟨1, 1, 1, 5⟩ 10 2 ⟨some 7, 2, some 6, some 12⟩).2.2 = [6] ∧
    (execute_sell ⟨1, 1, 1, 5⟩ 10 2 ⟨some 7, 2, some 6, some 12⟩).2.1.stop_price
        = none ∧
    (2 : ℚ) ≤ 2 :=
  have h : (execute_sell ⟨1, 1, 1, 5⟩ 10 2 ⟨some 7, 2, some 6, some 12⟩).1
      = SellOutcome.sold 2 6 := by
    unfold execute_sell conform_qty_price round_step round_tick sell_finalize
    norm_num [min_def, max_def]
  have main := c4_sell_accounting ⟨1, 1, 1, 5⟩ 10 2 2 6 ⟨some 7, 2, some 6, some 12⟩ h
  ⟨main.2.1,
   (main.2.2.2.1 (main.2.2.1.trans (by norm_num [max_def]))).1,
   main.2.2.2.2 (by norm_num [round_step, min_def])
     (by norm_num [conform_qty_price, round_step, round_tick, min_def, max_def])⟩

/-! ## Claim C5 — protective levels only with an open position -/

/-- The sell tail preserves the protective-levels invariant: it clears the
levels whenever the position it leaves behind is not strictly positive. -/
theorem levelsInv_sell_finalize (last_price q : ℚ) (st : ExecState) :
    levelsInv (sell_finalize last_price q st).2.1 := by
  unfold sell_finalize levelsInv
  dsimp only
  split_ifs with hle
  · rintro (hc | hc) <;> exact absurd rfl hc
  · intro _
    exact lt_of_not_le hle

/-- The function `execute_sell` preserves the protective-levels invariant. -/
theorem levelsInv_execute_sell (flt : SymbolFilters) (last_price wallet_qty : ℚ)
    (st : ExecState) (h : levelsInv st) :
    levelsInv (execute_sell flt last_price wallet_qty st).2.1 := by
  unfold execute_sell
  dsimp only
  split_ifs with h1 h2 h3 h4
  · exact h
  · exact h
  · exact h
  · exact levelsInv_sell_finalize _ _ _
  · exact levelsInv_sell_finalize _ _ _

/-- The function `apply_protective_levels` never touches the position quantity, so a
strictly positive position keeps the invariant whatever levels it sets. -/
theorem levelsInv_apply_protective_levels (cfg : RiskConfig) (avg_price : ℚ)
    (st : ExecState) (h : 0 < st.last_buy_qty) :
    levelsInv (apply_protective_levels cfg avg_price st).1 := by
  unfold apply_protective_levels levelsInv
  dsimp only
  split_ifs <;> exact fun _ => h

/-- C5 counterexample: The invariant is *not* preserved by
reconciliation: open a position (quantity `1`, levels `95`/`105` derived
from average `100`), then reconcile against a wallet balance of `0` — the
position flattens but the stale protective levels survive. -/
theorem c5_counterexample :
    ¬ levelsInv (reconcile_for_symbol 0 []
        (execute_buy ⟨10, 5, 5, 5, 10, 1000, true⟩ ⟨1, 1, 1, 10⟩ 100 true
          [(100, 1)] 50 ⟨none, 0, none, none⟩).2.1) := by
  have hbuy : (execute_buy ⟨10, 5, 5, 5, 10, 1000, true⟩ ⟨1, 1, 1, 10⟩ 100 true
      [(100, 1)] 50 ⟨none, 0, none, none⟩).2.1
      = ⟨some 100, 1, some 95, some 105⟩ := by
    unfold execute_buy apply_protective_levels totalQty fillCost sl_pct tp_pct
    norm_num [max_def]
  rw [hbuy]
  have hrec : reconcile_for_symbol 0 [] (⟨some 100, 1, some 95, some 105⟩ : ExecState)
      = ⟨some 0, 0, some 95, some 105⟩ := by
    unfold reconcile_for_symbol
    norm_num
  rw [hrec]
  intro hinv
  exact absurd (hinv (Or.inl (by simp))) (by norm_num)

/-- C5 (amended): The invariant "protective levels exist only while the
position quantity is strictly positive" is preserved by the sell path, by
the protective-exit check, and by the buy path whenever the filled order has
positive total quantity; it is *not* preserved by `reconcile_for_symbol`,
which zeroes the position on an empty wallet without clearing the stored
levels. -/
theorem c5_levels_invariant (flt : SymbolFilters) (last_price wallet_qty : ℚ)
    (st : ExecState) :
    (levelsInv st → levelsInv (execute_sell flt last_price wallet_qty st).2.1) ∧
    (levelsInv st →
      levelsInv (check_protective_exit flt last_price wallet_qty st).2.1) ∧
    (∀ (cfg : RiskConfig) (quoteOk : Bool) (fills : List (ℚ × ℚ))
        (desired_quote_usdt : ℚ),
      levelsInv st → 0 < totalQty fills →
      levelsInv (execute_buy cfg flt last_price quoteOk fills
        desired_quote_usdt st).2.1) := by
  refine ⟨levelsInv_execute_sell flt last_price wallet_qty st, ?_, ?_⟩
  · intro h
    unfold check_protective_exit
    rcases htr : protectiveTrigger st last_price with _ | r
    · exact h
    · exact levelsInv_execute_sell flt last_price wallet_qty st h
  · intro cfg quoteOk fills desired h hfq
    unfold execute_buy
    dsimp only
    split_ifs
    all_goals first
      | exact h
      | exact levelsInv_apply_protective_levels _ _ _ hfq

/-- C5 witness: A sell that flattens a protected position keeps the
invariant, and a filled buy from flat establishes it. -/
theorem c5_witness :
    levelsInv ((execute_sell ⟨1, 1, 1, 1⟩ 10 1 ⟨some 8, 1, some 7, some 9⟩).2.1) ∧
    levelsInv ((execute_buy ⟨10, 5, 5, 5, 10, 1000, true⟩ ⟨1, 1, 1, 10⟩ 100 true
        [(100, 1)] 50 ⟨none, 0, none, none⟩).2.1) :=
  ⟨(c5_levels_invariant ⟨1, 1, 1, 1⟩ 10 1 ⟨some 8, 1, some 7, some 9⟩).1
      (fun _ => by norm_num),
   (c5_levels_invariant ⟨1, 1, 1, 10⟩ 100 0 ⟨none, 0, none, none⟩).2.2
      ⟨10, 5, 5, 5, 10, 1000, true⟩ true [(100, 1)] 50
      (by rintro (hc | hc) <;> exact absurd rfl hc)
      (by norm_num [totalQty])⟩

/-! ## Claim C6 — protective-exit trigger condition -/

/-- C6: For a symbol with an open position (`quantity > 0`) and
configured stop/take prices, the protective check fires exactly when
`latestClosePrice <= stopPrice` or `latestClosePrice >= takePrice`; when
both hold, the stop branch takes precedence; when flat it fires nothing;
and when it fires, it runs the full-position sell. -/
theorem c6_protective_exit (st : ExecState) (last_price s t : ℚ)
    (hq : 0 < st.last_buy_qty) (hs : st.stop_price = some s)
    (ht : st.take_price = some t) (hs0 : s ≠ 0) (ht0 : t ≠ 0) :
    ((protectiveTrigger st last_price).isSome
        ↔ (last_price ≤ s ∨ t ≤ last_price)) ∧
    (last_price ≤ s →
      protectiveTrigger st last_price = some TriggerReason.stopHit) ∧
    (∀ (st' : ExecState) (lp' : ℚ), st'.last_buy_qty ≤ 0 →
      protectiveTrigger st' lp' = none) ∧
    (∀ (flt : SymbolFilters) (wallet_qty : ℚ) (r : TriggerReason),
      protectiveTrigger st last_price = some r →
      check_protective_exit flt last_price wallet_qty st
        = (some (execute_sell flt last_price wallet_qty st).1,
            (execute_sell flt last_price wallet_qty st).2.1,
            (execute_sell flt last_price wallet_qty st).2.2)) := by
  have e : protectiveTrigger st last_price
      = (if last_price ≤ s then some TriggerReason.stopHit
         else if t ≤ last_price then some TriggerReason.takeHit else none) := by
    unfold protectiveTrigger
    rw [if_neg (not_le.2 hq), hs, ht]
    simp [hs0, ht0]
  refine ⟨?_, ?_, ?_, ?_⟩
  · rw [e]
    by_cases h1 : last_price ≤ s
    · simp [h1]
    · by_cases h2 : t ≤ last_price <;> simp [h1, h2]
  · intro hle
    rw [e, if_pos hle]
  · intro st' lp' h0
    unfold protectiveTrigger
    rw [if_pos h0]
  · intro flt wallet_qty r htr
    unfold check_protective_exit
    rw [htr]

/-- C6 witness: Position `1` with stop `95` / take `105`, candle close
`90`: the stop branch fires. -/
theorem c6_witness :
    protectiveTrigger ⟨some 100, 1, some 95, some 105⟩ 90
        = some TriggerReason.stopHit ∧ ((90 : ℚ) ≤ 95 ∨ (105 : ℚ) ≤ 90) :=
  ⟨(c6_protective_exit ⟨some 100, 1, some 95, some 105⟩ 90 95 105 (by norm_num)
      rfl rfl (by norm_num) (by norm_num)).2.1 (by norm_num),
   Or.inl (by norm_num)⟩

/-! ## Claim C2 — signal deduplication -/

/-- The newest element survives the 500-entry cap of the dedup window. -/
theorem mem_takeLast_append {α : Type} (l : List α) (r : α) :
    r ∈ takeLast 500 (l ++ [r]) := by
  unfold takeLast
  rw [List.drop_append_of_le_length (by simp)]
  exact List.mem_append_right _ (List.mem_singleton_self r)

set_option maxRecDepth 8192 in
/-- C2: If the same `(symbol, side, candleCloseTime)` tuple is submitted
twice within the dedup TTL (trading mode, not paused, tuple not already in
the window), exactly one `place_signal` call results: the first submission
records the tuple and executes, the second is detected by
`is_recent_signal` and skipped. -/
theorem c2_dedup_exactly_one_execution (arr : List SignalRec)
    (t1 t2 candle_close ttl_sec : ℤ) (symbol side : String)
    (h_ttl : 0 ≤ ttl_sec) (h_gap : t2 - t1 ≤ ttl_sec)
    (h_side : side = "buy" ∨ side = "sell")
    (h_fresh : (is_recent_signal t1 symbol side candle_close ttl_sec arr).1
        = false) :
    (submitSignal "trade" false t1 symbol side candle_close ttl_sec arr).1
        = SubmitResult.executed ∧
    (submitSignal "trade" false t2 symbol side candle_close ttl_sec
        (submitSignal "trade" false t1 symbol side candle_close ttl_sec arr).2).1
        = SubmitResult.dedupSkipped ∧
    execCount
        (submitSignal "trade" false t1 symbol side candle_close ttl_sec arr).1
      + execCount (submitSignal "trade" false t2 symbol side candle_close ttl_sec
          (submitSignal "trade" false t1 symbol side candle_close ttl_sec arr).2).1
      = 1 := by
  have hmode : ("trade" = "trade" ∧ (side = "buy" ∨ side = "sell")) :=
    ⟨rfl, h_side⟩
  have h1 : submitSignal "trade" false t1 symbol side candle_close ttl_sec arr
      = (SubmitResult.executed,
         add_recent_signal t1 symbol side candle_close ttl_sec
           (is_recent_signal t1 symbol side candle_close ttl_sec arr).2) := by
    unfold submitSignal
    rw [if_pos hmode]
    dsimp only
    rw [h_fresh]
    rfl
  have hr_mem : (⟨t1, symbol, side, candle_close⟩ : SignalRec)
      ∈ add_recent_signal t1 symbol side candle_close ttl_sec
          (is_recent_signal t1 symbol side candle_close ttl_sec arr).2 := by
    unfold add_recent_signal pruneKeep
    rw [List.filter_append]
    have hp : List.filter (fun x : SignalRec => decide (t1 - x.ts ≤ ttl_sec))
        [⟨t1, symbol, side, candle_close⟩]
        = [⟨t1, symbol, side, candle_close⟩] := by
      simp [sub_self, h_ttl]
    rw [hp]
    exact mem_takeLast_append _ _
  have h2hit : (is_recent_signal t2 symbol side candle_close ttl_sec
      (add_recent_signal t1 symbol side candle_close ttl_sec
        (is_recent_signal t1 symbol side candle_close ttl_sec arr).2)).1
      = true := by
    unfold is_recent_signal pruneKeep
    dsimp only
    apply List.any_eq_true.mpr
    exact ⟨⟨t1, symbol, side, candle_close⟩,
      List.mem_filter.mpr ⟨hr_mem, by simpa using h_gap⟩, by simp⟩
  have h2 : (submitSignal "trade" false t2 symbol side candle_close ttl_sec
      (add_recent_signal t1 symbol side candle_close ttl_sec
        (is_recent_signal t1 symbol side candle_close ttl_sec arr).2)).1
      = SubmitResult.dedupSkipped := by
    unfold submitSignal
    rw [if_pos hmode]
    dsimp only
    rw [h2hit]
    rfl
  refine ⟨by rw [h1], ?_, ?_⟩
  · rw [h1]
    exact h2
  · rw [h1]
    dsimp only
    rw [h2]
    rfl

/-- C2 witness: `("BTCUSDT", "buy", 12345)` submitted at `t = 100` and
again at `t = 110` with a TTL of `30` seconds: first executes, second is
dedup-skipped. -/
theorem c2_witness :
    (submitSignal "trade" false 100 "BTCUSDT" "buy" 12345 30 []).1
        = SubmitResult.executed ∧
    (submitSignal "trade" false 110 "BTCUSDT" "buy" 12345 30
        (submitSignal "trade" false 100 "BTCUSDT" "buy" 12345 30 []).2).1
        = SubmitResult.dedupSkipped :=
  have main := c2_dedup_exactly_one_execution [] 100 110 12345 30 "BTCUSDT" "buy"
    (by norm_num) (by norm_num) (Or.inl rfl) rfl
  ⟨main.1, main.2.1⟩

/-! ## Claim C3 — reconnect does not re-seed an existing buffer -/

/-- C3 (code behaviour at the failing input): A same-timeframe reconnect
does *not* re-seed the candle buffer: starting from a buffer seeded with
candles at open times `0` and `60000` ms, the reconnect-path call to
`bootstrap_from_rest` with a fresh gap-free snapshot is a no-op (the buffer
key already exists), and after the first live candle (open time `240000`)
the snapshot handed to the strategies has length `≥ 2` — so signals are
evaluated — while containing a `180000` ms gap, three one-minute intervals
wide. -/
theorem c3_reconnect_no_reseed :
    bootstrap_from_rest
        (bootstrap_from_rest ⟨2000, []⟩ "BTCUSDT" "1m" c3SeedKlines)
        "BTCUSDT" "1m" c3FreshKlines
      = bootstrap_from_rest ⟨2000, []⟩ "BTCUSDT" "1m" c3SeedKlines ∧
    gapFreeB 60000 c3FreshKlines = true ∧
    2 ≤ (get_df (on_kline_closed (bootstrap_from_rest
          (bootstrap_from_rest ⟨2000, []⟩ "BTCUSDT" "1m" c3SeedKlines)
          "BTCUSDT" "1m" c3FreshKlines) "BTCUSDT" "1m" c3LiveCandle)
        "BTCUSDT" "1m").length ∧
    gapFreeB 60000 (get_df (on_kline_closed (bootstrap_from_rest
          (bootstrap_from_rest ⟨2000, []⟩ "BTCUSDT" "1m" c3SeedKlines)
          "BTCUSDT" "1m" c3FreshKlines) "BTCUSDT" "1m" c3LiveCandle)
        "BTCUSDT" "1m") = false := by
  have hlook : ∀ (v : List Candle),
      List.lookup (mdKey "BTCUSDT" "1m") [(mdKey "BTCUSDT" "1m", v)]
        = some v := by
    intro v
    simp [List.lookup]
  have hb0 : bootstrap_from_rest ⟨2000, []⟩ "BTCUSDT" "1m" c3SeedKlines
      = ⟨2000, [(mdKey "BTCUSDT" "1m", c3SeedKlines)]⟩ := rfl
  have hb1 : bootstrap_from_rest ⟨2000, [(mdKey "BTCUSDT" "1m", c3SeedKlines)]⟩
      "BTCUSDT" "1m" c3FreshKlines
      = ⟨2000, [(mdKey "BTCUSDT" "1m", c3SeedKlines)]⟩ := by
    unfold bootstrap_from_rest
    dsimp only
    rw [hlook]
  have hset : setKey [(mdKey "BTCUSDT" "1m", c3SeedKlines)] (mdKey "BTCUSDT" "1m")
      (takeLast 2000 (c3SeedKlines ++ [c3LiveCandle]))
      = [(mdKey "BTCUSDT" "1m", takeLast 2000 (c3SeedKlines ++ [c3LiveCandle]))] := by
    unfold setKey
    rw [if_pos rfl]
  have htak : takeLast 2000 (c3SeedKlines ++ [c3LiveCandle])
      = c3SeedKlines ++ [c3LiveCandle] := rfl
  have hb2 : on_kline_closed ⟨2000, [(mdKey "BTCUSDT" "1m", c3SeedKlines)]⟩
      "BTCUSDT" "1m" c3LiveCandle
      = ⟨2000, [(mdKey "BTCUSDT" "1m", c3SeedKlines ++ [c3LiveCandle])]⟩ := by
    unfold on_kline_closed
    dsimp only
    rw [hlook]
    dsimp only [Option.getD]
    rw [hset, htak]
  have hdf : get_df ⟨2000, [(mdKey "BTCUSDT" "1m", c3SeedKlines ++ [c3LiveCandle])]⟩
      "BTCUSDT" "1m" = c3SeedKlines ++ [c3LiveCandle] := by
    unfold get_df
    dsimp only
    rw [hlook]
    rfl
  refine ⟨?_, by decide, ?_, ?_⟩
  · rw [hb0, hb1]
  · rw [hb0, hb1, hb2, hdf]
    decide
  · rw [hb0, hb1, hb2, hdf]
    decide

end TradeBot
